import Mathlib

/-!
A shallow embedding of `pymarc/field.py` (the `Field` class of the pymarc
library) together with proofs about its serialization, formatting and
classification behaviour.

The Python source stores a field as a duck-typed object: a 3-character
(left-space-padded) `tag`, and either a `data` string (control fields,
tag textually below `"010"`) or an indicator list plus a flat list of
alternating subfield codes and values (data fields).  Fallible Python
operations (list indexing out of range, accessing an attribute the
variant does not have) are embedded as `Except PyErr`.
-/

namespace Pymarc

/-- Modelled from the spec: `pymarc/constants.py` is not part of the sources
under study; per the spec the subfield delimiter is the exact MARC21
subfield-delimiter byte, which the MARC21 standard fixes as 0x1F. -/
def SUBFIELD_INDICATOR : String := ⟨[Char.ofNat 0x1f]⟩

/-- Modelled from the spec: `pymarc/constants.py` is not part of the sources
under study; per the spec the field terminator is the exact MARC21
field-terminator byte, which the MARC21 standard fixes as 0x1E. -/
def END_OF_FIELD : String := ⟨[Char.ofNat 0x1e]⟩

/-- The kinds of Python exception the embedded code can raise.
`indexError` is the generic out-of-bounds error of list indexing
(`IndexError: list index out of range`); `attributeError` is raised when an
attribute that only the other variant of `Field` carries is accessed — the
duck-typed signal of a variant mismatch; `malformedSubfieldsError` stands
for a hypothetical domain-specific error naming a corrupt subfield list —
no code path in `field.py` ever raises it, it exists so that statements can
distinguish it from the generic `indexError`. -/
inductive PyErr : Type
  | indexError : PyErr
  | attributeError : PyErr
  | malformedSubfieldsError : PyErr
deriving DecidableEq, Repr

/-- Python's `<` on strings: lexicographic comparison by code point,
executable (Lean's own `String.decidableLT` does not reduce). -/
def ltChars : List Char → List Char → Bool
  | [], [] => false
  | [], _ :: _ => true
  | _ :: _, [] => false
  | a :: as, b :: bs => decide (a < b) || (decide (a = b) && ltChars as bs)

/-- Python string comparison `s < t`, as a Bool. -/
def ltStr (s t : String) : Bool := ltChars s.data t.data

/-- Tag normalization, `'%03s' % tag`: left-pad with spaces to width 3;
longer inputs pass through unchanged. -/
def normTag (tag : String) : String :=
  if tag.length < 3 then ⟨List.replicate (3 - tag.length) ' ' ++ tag.data⟩ else tag

/-- The two duck-typed shapes a `Field` instance can take after
`__init__`: a control field carries only `data`; a data field carries the
indicator list, the two extracted indicators and the flat subfield list
(alternating codes and values, as in the Python source). -/
inductive FieldBody : Type
  | control (data : String) : FieldBody
  | dataField (indicators : List Char) (indicator1 indicator2 : Char)
      (subfields : List String) : FieldBody
deriving DecidableEq, Repr

structure Field : Type where
  tag : String
  body : FieldBody
deriving DecidableEq, Repr

/-- `Field.__init__`: normalize the tag, pick the variant by comparing the
normalized tag with `"010"`; a data field reads `indicators[0]` and
`indicators[1]`, raising `IndexError` when fewer than two are supplied. -/
def field_init (tag : String) (indicators : List Char)
    (subfields : List String) (data : String) : Except PyErr Field :=
  let t := normTag tag
  if ltStr t "010" then
    .ok ⟨t, .control data⟩
  else
    match indicators with
    | i1 :: i2 :: _ => .ok ⟨t, .dataField indicators i1 i2 subfields⟩
    | _ => .error .indexError

/-- `Field.is_control_field`: true iff the stored tag compares below
`"010"` in ordinary string order. -/
def Field.is_control_field (f : Field) : Bool := ltStr f.tag "010"

/-- Python `str.startswith` for a single-character argument. -/
def headIs (s : String) (c : Char) : Bool :=
  match s.data with
  | [] => false
  | a :: _ => a = c

/-- `Field.is_subject_field`: true iff the stored tag starts with '6'. -/
def Field.is_subject_field (f : Field) : Bool := headIs f.tag '6'

/-- The subfield iterator (`__iter__`/`next`): reads the flat list two
entries at a time, yielding (code, value) pairs; on an odd-length list the
access `subfields[pos+1]` at the unpaired trailing entry raises the generic
`IndexError`. -/
def pairsOf : List String → Except PyErr (List (String × String))
  | [] => .ok []
  | [_] => .error .indexError
  | c :: v :: rest => do
    let ps ← pairsOf rest
    return (c, v) :: ps

/-- `Field.value`: control fields return `data`; data fields concatenate
the iterated pair values into an accumulator string. -/
def Field.value (f : Field) : Except PyErr String :=
  if f.is_control_field then
    match f.body with
    | .control d => .ok d
    | .dataField _ _ _ _ => .error .attributeError
  else
    match f.body with
    | .control _ => .error .attributeError
    | .dataField _ _ _ sf => do
      let ps ← pairsOf sf
      return ps.foldl (fun acc p => acc ++ p.2) ""

/-- `Field.get_subfields`: values of the iterated pairs whose code is among
`codes`, in field order. -/
def Field.get_subfields (f : Field) (codes : List String) :
    Except PyErr (List String) :=
  match f.body with
  | .control _ => .error .attributeError
  | .dataField _ _ _ sf => do
    let ps ← pairsOf sf
    return (ps.filter (fun p => p.1 ∈ codes)).map (fun p => p.2)

/-- `Field.add_subfield`: appends `code` then `value` to the flat subfield
list; on a control field the attribute access `self.subfields` raises
`AttributeError`. -/
def Field.add_subfield (f : Field) (code value : String) : Except PyErr Field :=
  match f.body with
  | .control _ => .error .attributeError
  | .dataField inds i1 i2 sf =>
    .ok ⟨f.tag, .dataField inds i1 i2 (sf ++ [code, value])⟩

/-- `Field.as_marc21`: control fields are `data` plus the field terminator;
data fields are the two indicators, then per pair the subfield delimiter,
code and value, then the field terminator. -/
def Field.as_marc21 (f : Field) : Except PyErr String :=
  if f.is_control_field then
    match f.body with
    | .control d => .ok (d ++ END_OF_FIELD)
    | .dataField _ _ _ _ => .error .attributeError
  else
    match f.body with
    | .control _ => .error .attributeError
    | .dataField _ i1 i2 sf => do
      let ps ← pairsOf sf
      return (ps.foldl (fun acc p => acc ++ (SUBFIELD_INDICATOR ++ p.1 ++ p.2))
        (⟨[i1]⟩ ++ ⟨[i2]⟩)) ++ END_OF_FIELD

/-- Python whitespace as stripped by `str.strip()` (ASCII part). -/
def isPySpace (c : Char) : Bool :=
  c = ' ' || c = '\t' || c = '\n' || c = '\r' ||
    c = Char.ofNat 0x0b || c = Char.ofNat 0x0c

/-- Remove trailing whitespace characters from a character list. -/
def rstripChars : List Char → List Char
  | [] => []
  | c :: cs =>
    match rstripChars cs with
    | [] => if isPySpace c then [] else [c]
    | r => c :: r

/-- Python `str.strip()`: drop leading and trailing whitespace once. -/
def pyStrip (s : String) : String := ⟨rstripChars (s.data.dropWhile isPySpace)⟩

/-- `Field.format_field`: control fields return `data`; data fields
accumulate, per pair, a space plus the value — except on subject fields
where codes v, x, y, z get `" -- "` instead — and strip the result once. -/
def Field.format_field (f : Field) : Except PyErr String :=
  if f.is_control_field then
    match f.body with
    | .control d => .ok d
    | .dataField _ _ _ _ => .error .attributeError
  else
    match f.body with
    | .control _ => .error .attributeError
    | .dataField _ _ _ sf => do
      let ps ← pairsOf sf
      let fielddata := ps.foldl (fun acc p =>
        if !f.is_subject_field then acc ++ (" " ++ p.2)
        else if p.1 ∉ (["v", "x", "y", "z"] : List String) then acc ++ (" " ++ p.2)
        else acc ++ (" -- " ++ p.2)) ""
      return pyStrip fielddata

/-- Python `str.replace(old, new)` where `old` and `new` are single
characters: replace every occurrence character-wise. -/
def replaceChar (s : String) (old new : Char) : String :=
  ⟨s.data.map (fun c => if c = old then new else c)⟩

/-- `Field.__str__`: MARCMaker text. `=` plus tag plus two spaces; control
fields append `data` with spaces turned into backslashes; data fields
append each indicator (space and backslash both render as a backslash),
then per pair `$` plus code plus value. -/
def Field.str (f : Field) : Except PyErr String :=
  if f.is_control_field then
    match f.body with
    | .control d => .ok ("=" ++ f.tag ++ "  " ++ replaceChar d ' ' '\\')
    | .dataField _ _ _ _ => .error .attributeError
  else
    match f.body with
    | .control _ => .error .attributeError
    | .dataField inds _ _ sf => do
      let text := inds.foldl (fun acc i =>
        if i = ' ' || i = '\\' then acc ++ "\\" else acc ++ (⟨[i]⟩ : String))
        ("=" ++ f.tag ++ "  ")
      let ps ← pairsOf sf
      return ps.foldl (fun acc p => acc ++ ("$" ++ p.1 ++ p.2)) text

/-! ### Specification-side descriptions

Direct recursions over the pair list, written from the specification's
wording, to be compared with the accumulator loops of the source. -/

/-- Concatenation of the rendering of each list element, in order, with no
separator. -/
def strConcat (g : α → String) : List α → String
  | [] => ""
  | x :: xs => g x ++ strConcat g xs

/-- Spec side of `as_marc21`, data variant: per subfield the delimiter,
the code and the value, concatenated. -/
def marc21Subfields (ps : List (String × String)) : String :=
  strConcat (fun p => SUBFIELD_INDICATOR ++ p.1 ++ p.2) ps

/-- Spec side of `value`, data variant: every pair value of the flat list,
in order, no separator. -/
def valueSpec : List String → String
  | _ :: v :: rest => v ++ valueSpec rest
  | _ => ""

/-- Spec side of one `format_field` step: `" -- "` plus the value on a
subject field when the code is v, x, y or z, otherwise a space plus the
value. -/
def formatPiece (isSubj : Bool) (p : String × String) : String :=
  if isSubj = true ∧ p.1 ∈ (["v", "x", "y", "z"] : List String) then
    " -- " ++ p.2
  else " " ++ p.2

/-- Spec side of `format_field`, data variant, before the final strip. -/
def formatSpec (isSubj : Bool) (ps : List (String × String)) : String :=
  strConcat (formatPiece isSubj) ps

/-- Spec side of one MARCMaker indicator: a space or backslash indicator
renders as a backslash, anything else as itself. -/
def indicatorText (i : Char) : String :=
  if i = ' ' || i = '\\' then "\\" else ⟨[i]⟩

/-- Spec side of the MARCMaker subfield block: `$` plus code plus value
per pair, concatenated. -/
def mnemonicSubfields (ps : List (String × String)) : String :=
  strConcat (fun p => "$" ++ p.1 ++ p.2) ps

/-- The pairs of an even-length flat subfield list. -/
def pairUp : List String → List (String × String)
  | c :: v :: rest => (c, v) :: pairUp rest
  | _ => []

/-! ### Helper lemmas -/

theorem foldl_strConcat_of {α : Type} (f : String → α → String)
    (g : α → String) (hf : ∀ acc p, f acc p = acc ++ g p) :
    ∀ (l : List α) (a : String), l.foldl f a = a ++ strConcat g l := by
  intro l
  induction l with
  | nil => intro a; simp [strConcat]
  | cons x xs ih =>
    intro a
    simp only [List.foldl_cons, strConcat, ih, hf, String.append_assoc]

theorem ltChars_iff : ∀ (as bs : List Char), ltChars as bs = true ↔ as < bs := by
  intro as
  induction as with
  | nil =>
    intro bs
    cases bs with
    | nil =>
      simp only [ltChars, Bool.false_eq_true, false_iff]
      intro h
      cases h
    | cons b bs =>
      simp only [ltChars, true_iff]
      exact List.Lex.nil
  | cons a as ih =>
    intro bs
    cases bs with
    | nil =>
      simp only [ltChars, Bool.false_eq_true, false_iff]
      intro h
      cases h
    | cons b bs =>
      simp only [ltChars, Bool.or_eq_true, Bool.and_eq_true, decide_eq_true_eq, ih]
      constructor
      · intro h
        rcases h with h | ⟨rfl, h⟩
        · exact List.Lex.rel h
        · exact List.Lex.cons h
      · intro h
        cases h with
        | rel h => exact Or.inl h
        | cons h => exact Or.inr ⟨rfl, h⟩

theorem ltStr_iff (s t : String) : ltStr s t = true ↔ s < t := by
  rw [String.lt_iff_toList_lt]
  exact ltChars_iff s.data t.data

theorem ltStr_false_iff (s t : String) : ltStr s t = false ↔ ¬ s < t := by
  rw [← ltStr_iff]
  simp

theorem pairsOf_odd : ∀ (sf : List String), sf.length % 2 = 1 →
    pairsOf sf = .error .indexError := by
  intro sf
  induction sf using pairsOf.induct with
  | case1 => intro h; simp at h
  | case2 x => intro _; rfl
  | case3 c v rest ih =>
    intro h
    simp only [List.length_cons] at h
    have hrest : rest.length % 2 = 1 := by omega
    simp only [pairsOf, ih hrest]
    rfl

theorem pairsOf_even : ∀ (sf : List String), sf.length % 2 = 0 →
    pairsOf sf = .ok (pairUp sf) := by
  intro sf
  induction sf using pairsOf.induct with
  | case1 => intro _; rfl
  | case2 x => intro h; simp at h
  | case3 c v rest ih =>
    intro h
    simp only [List.length_cons] at h
    have hrest : rest.length % 2 = 0 := by omega
    simp only [pairsOf, ih hrest, pairUp]
    rfl

theorem pairsOf_append_pair (c v : String) : ∀ (sf : List String),
    pairsOf (sf ++ [c, v]) =
      Except.map (fun ps => ps ++ [(c, v)]) (pairsOf sf) := by
  intro sf
  induction sf using pairsOf.induct with
  | case1 => rfl
  | case2 x => rfl
  | case3 c₀ v₀ rest ih =>
    have hshape : (c₀ :: v₀ :: rest) ++ [c, v] = c₀ :: v₀ :: (rest ++ [c, v]) := rfl
    rw [hshape]
    simp only [pairsOf, ih]
    cases h : pairsOf rest with
    | error e => rfl
    | ok ps => rfl

theorem rstrip_cons_of_head (c : Char) (l : List Char)
    (h : isPySpace c = false) : ∃ t, rstripChars (c :: l) = c :: t := by
  rw [rstripChars]
  cases hr : rstripChars l with
  | nil => exact ⟨[], by simp [h]⟩
  | cons x xs => exact ⟨x :: xs, rfl⟩

theorem rstrip_cons_of_tail (c x : Char) (cs xs : List Char)
    (h : rstripChars cs = x :: xs) : rstripChars (c :: cs) = c :: x :: xs := by
  simp only [rstripChars, h]

theorem valueSpec_eq_pairUp : ∀ (sf : List String),
    valueSpec sf = strConcat (fun p => p.2) (pairUp sf) := by
  intro sf
  induction sf using pairsOf.induct with
  | case1 => rfl
  | case2 x => rfl
  | case3 c v rest ih => simp only [valueSpec, pairUp, strConcat, ih]

/-- `value` on a data field whose pairing succeeds: the concatenated pair
values. -/
theorem value_data_eq (f : Field) (inds : List Char) (i1 i2 : Char)
    (sf : List String) (ps : List (String × String))
    (hc : f.is_control_field = false) (hb : f.body = .dataField inds i1 i2 sf)
    (hp : pairsOf sf = .ok ps) :
    f.value = .ok (strConcat (fun p => p.2) ps) := by
  simp only [Field.value, hc, Bool.false_eq_true, if_false, hb, hp]
  show Except.ok (List.foldl (fun acc p => acc ++ p.2) "" ps) = _
  rw [foldl_strConcat_of (fun (acc : String) (p : String × String) => acc ++ p.2)
    (fun p => p.2) (fun _ _ => rfl), String.empty_append]

/-- `as_marc21` on a data field whose pairing succeeds. -/
theorem marc21_data_eq (f : Field) (inds : List Char) (i1 i2 : Char)
    (sf : List String) (ps : List (String × String))
    (hc : f.is_control_field = false) (hb : f.body = .dataField inds i1 i2 sf)
    (hp : pairsOf sf = .ok ps) :
    f.as_marc21 =
      .ok ((⟨[i1]⟩ : String) ++ ⟨[i2]⟩ ++ marc21Subfields ps ++ END_OF_FIELD) := by
  simp only [Field.as_marc21, hc, Bool.false_eq_true, if_false, hb, hp]
  show Except.ok (List.foldl (fun acc p => acc ++ (SUBFIELD_INDICATOR ++ p.1 ++ p.2))
    ((⟨[i1]⟩ : String) ++ ⟨[i2]⟩) ps ++ END_OF_FIELD) = _
  rw [foldl_strConcat_of
    (fun (acc : String) (p : String × String) => acc ++ (SUBFIELD_INDICATOR ++ p.1 ++ p.2))
    (fun p => SUBFIELD_INDICATOR ++ p.1 ++ p.2) (fun _ _ => rfl)]
  rfl

/-- `format_field` on a data field whose pairing succeeds: the accumulator
loop equals the direct spec recursion, stripped once. -/
theorem format_data_eq (f : Field) (inds : List Char) (i1 i2 : Char)
    (sf : List String) (ps : List (String × String))
    (hc : f.is_control_field = false) (hb : f.body = .dataField inds i1 i2 sf)
    (hp : pairsOf sf = .ok ps) :
    f.format_field = .ok (pyStrip (formatSpec f.is_subject_field ps)) := by
  have hstep : ∀ (acc : String) (p : String × String),
      (if !f.is_subject_field then acc ++ (" " ++ p.2)
       else if p.1 ∉ (["v", "x", "y", "z"] : List String) then acc ++ (" " ++ p.2)
       else acc ++ (" -- " ++ p.2)) = acc ++ formatPiece f.is_subject_field p := by
    intro acc p
    cases hS : f.is_subject_field with
    | false => simp [formatPiece, hS]
    | true =>
      by_cases hm : p.1 ∈ (["v", "x", "y", "z"] : List String)
      · simp [formatPiece, hS, hm]
      · simp [formatPiece, hS, hm]
  simp only [Field.format_field, hc, Bool.false_eq_true, if_false, hb, hp]
  show Except.ok (pyStrip (List.foldl (fun acc p =>
    if !f.is_subject_field then acc ++ (" " ++ p.2)
    else if p.1 ∉ (["v", "x", "y", "z"] : List String) then acc ++ (" " ++ p.2)
    else acc ++ (" -- " ++ p.2)) "" ps)) = _
  rw [foldl_strConcat_of _ (formatPiece f.is_subject_field) hstep,
    String.empty_append]
  rfl

/-- `str` on a data field whose pairing succeeds. -/
theorem str_data_eq (f : Field) (inds : List Char) (i1 i2 : Char)
    (sf : List String) (ps : List (String × String))
    (hc : f.is_control_field = false) (hb : f.body = .dataField inds i1 i2 sf)
    (hp : pairsOf sf = .ok ps) :
    f.str = .ok ("=" ++ f.tag ++ "  " ++ strConcat indicatorText inds ++
      mnemonicSubfields ps) := by
  have hind : ∀ (acc : String) (i : Char),
      (if i = ' ' || i = '\\' then acc ++ "\\" else acc ++ (⟨[i]⟩ : String))
        = acc ++ indicatorText i := by
    intro acc i
    by_cases h : (i = ' ' || i = '\\') = true
    · simp [indicatorText, h]
    · simp [indicatorText, h]
  simp only [Field.str, hc, Bool.false_eq_true, if_false, hb, hp]
  show Except.ok (List.foldl (fun acc p => acc ++ ("$" ++ p.1 ++ p.2))
    (List.foldl (fun acc i =>
      if i = ' ' || i = '\\' then acc ++ "\\" else acc ++ (⟨[i]⟩ : String))
      ("=" ++ f.tag ++ "  ") inds) ps) = _
  rw [foldl_strConcat_of (fun acc i =>
      if i = ' ' || i = '\\' then acc ++ "\\" else acc ++ (⟨[i]⟩ : String))
      indicatorText hind,
    foldl_strConcat_of (fun (acc : String) (p : String × String) => acc ++ ("$" ++ p.1 ++ p.2))
      (fun p => "$" ++ p.1 ++ p.2) (fun _ _ => rfl)]
  rfl

/-! ### Claims -/

/-- C1: a control field serializes as its data followed immediately by the
field-terminator byte, with no indicators or delimiters; a data field
serializes as indicator1 then indicator2 (one character each), then per
subfield in stored order the subfield-delimiter byte, the code and the
value with no extra separators, then the field-terminator byte. -/
theorem C1_as_marc21 (f : Field) :
    (∀ d, f.is_control_field = true → f.body = .control d →
      f.as_marc21 = .ok (d ++ END_OF_FIELD)) ∧
    (∀ inds i1 i2 sf ps, f.is_control_field = false →
      f.body = .dataField inds i1 i2 sf → pairsOf sf = .ok ps →
      f.as_marc21 =
        .ok ((⟨[i1]⟩ : String) ++ ⟨[i2]⟩ ++ marc21Subfields ps ++ END_OF_FIELD)) := by
  constructor
  · intro d hc hb
    simp only [Field.as_marc21, hc, if_true, hb]
  · intro inds i1 i2 sf ps hc hb hp
    exact marc21_data_eq f inds i1 i2 sf ps hc hb hp

/-- C1 witness: `Field("001", data="fol123")` and a data field with
indicators 0 and 1 and subfields a/Hi serialize as the claim states. -/
theorem C1_as_marc21_witness :
    (Field.mk "001" (.control "fol123")).as_marc21
      = .ok ("fol123" ++ END_OF_FIELD) ∧
    (Field.mk "245" (.dataField ['0', '1'] '0' '1' ["a", "Hi"])).as_marc21
      = .ok ("01" ++ SUBFIELD_INDICATOR ++ "aHi" ++ END_OF_FIELD) := by
  constructor
  · exact (C1_as_marc21 _).1 "fol123" rfl rfl
  · have h := (C1_as_marc21 (Field.mk "245" (.dataField ['0', '1'] '0' '1' ["a", "Hi"]))).2
      ['0', '1'] '0' '1' ["a", "Hi"] [("a", "Hi")] rfl rfl rfl
    rw [h]
    rfl

/-- C2: on control fields `format_field` equals `value`; on data fields it
appends, per pair in order, a leading space then the value — except " -- "
on subject fields for codes v, x, y, z — and strips the outer whitespace
of the accumulated string exactly once. -/
theorem C2_format_field (f : Field) :
    (∀ d, f.is_control_field = true → f.body = .control d →
      f.format_field = f.value) ∧
    (∀ inds i1 i2 sf ps, f.is_control_field = false →
      f.body = .dataField inds i1 i2 sf → pairsOf sf = .ok ps →
      f.format_field = .ok (pyStrip (formatSpec f.is_subject_field ps))) := by
  constructor
  · intro d hc hb
    simp only [Field.format_field, Field.value, hc, if_true, hb]
  · intro inds i1 i2 sf ps hc hb hp
    exact format_data_eq f inds i1 i2 sf ps hc hb hp

/-- C2 witness: tag 650 with subfields a/Cats, v/Fiction formats as
"Cats -- Fiction"; the same subfields under tag 245 format as
"Cats Fiction"; a control field formats as its value. -/
theorem C2_format_field_witness :
    (Field.mk "650" (.dataField [' ', ' '] ' ' ' '
      ["a", "Cats", "v", "Fiction"])).format_field = .ok "Cats -- Fiction" ∧
    (Field.mk "245" (.dataField [' ', ' '] ' ' ' '
      ["a", "Cats", "v", "Fiction"])).format_field = .ok "Cats Fiction" ∧
    (Field.mk "001" (.control "fol123")).format_field
      = (Field.mk "001" (.control "fol123")).value := by
  refine ⟨?_, ?_, ?_⟩
  · have h := (C2_format_field (Field.mk "650" (.dataField [' ', ' '] ' ' ' '
      ["a", "Cats", "v", "Fiction"]))).2 [' ', ' '] ' ' ' '
      ["a", "Cats", "v", "Fiction"] [("a", "Cats"), ("v", "Fiction")] rfl rfl rfl
    rw [h]
    rfl
  · have h := (C2_format_field (Field.mk "245" (.dataField [' ', ' '] ' ' ' '
      ["a", "Cats", "v", "Fiction"]))).2 [' ', ' '] ' ' ' '
      ["a", "Cats", "v", "Fiction"] [("a", "Cats"), ("v", "Fiction")] rfl rfl rfl
    rw [h]
    rfl
  · exact (C2_format_field _).1 "fol123" rfl rfl

/-- C3: a control field constructed with data d has `value() = d`
verbatim; a data field with an even-length flat subfield list has
`value()` equal to the concatenation of every pair value, in stored order,
with no separator. -/
theorem C3_value (f : Field) :
    (∀ d, f.is_control_field = true → f.body = .control d → f.value = .ok d) ∧
    (∀ inds i1 i2 sf, f.is_control_field = false →
      f.body = .dataField inds i1 i2 sf → sf.length % 2 = 0 →
      f.value = .ok (valueSpec sf)) := by
  constructor
  · intro d hc hb
    simp only [Field.value, hc, if_true, hb]
  · intro inds i1 i2 sf hc hb heven
    rw [value_data_eq f inds i1 i2 sf (pairUp sf) hc hb (pairsOf_even sf heven),
      ← valueSpec_eq_pairUp]

/-- C3 witness: `Field("001", data="fol05731351")` has that value, and a
data field with subfields a/X, b/Y has value "XY". -/
theorem C3_value_witness :
    (Field.mk "001" (.control "fol05731351")).value = .ok "fol05731351" ∧
    (Field.mk "245" (.dataField ['0', '1'] '0' '1' ["a", "X", "b", "Y"])).value
      = .ok "XY" := by
  constructor
  · exact (C3_value _).1 "fol05731351" rfl rfl
  · have h := (C3_value (Field.mk "245" (.dataField ['0', '1'] '0' '1'
      ["a", "X", "b", "Y"]))).2 ['0', '1'] '0' '1' ["a", "X", "b", "Y"]
      rfl rfl (by decide)
    rw [h]
    rfl

/-- C4: `is_control_field` holds iff the stored (normalized) tag compares
below "010" in ordinary string order, `is_subject_field` holds iff the
stored tag's first character is '6', and both are pure functions of the
tag alone. -/
theorem C4_classification :
    (∀ f : Field, (f.is_control_field = true ↔ f.tag < "010") ∧
      (f.is_subject_field = true ↔ f.tag.data.head? = some '6')) ∧
    (∀ f g : Field, f.tag = g.tag →
      f.is_control_field = g.is_control_field ∧
      f.is_subject_field = g.is_subject_field) := by
  constructor
  · intro f
    constructor
    · exact ltStr_iff f.tag "010"
    · show headIs f.tag '6' = true ↔ _
      unfold headIs
      cases h : f.tag.data with
      | nil => simp
      | cons a l => simp
  · intro f g h
    constructor
    · show ltStr f.tag "010" = ltStr g.tag "010"
      rw [h]
    · show headIs f.tag '6' = headIs g.tag '6'
      rw [h]

/-- C4 witness: tag "001" is a control field, tag "650" is a subject
field, and two fields sharing a tag classify identically. -/
theorem C4_classification_witness :
    (Field.mk "001" (.control "d")).is_control_field = true ∧
    (Field.mk "650" (.dataField [' ', ' '] ' ' ' ' ["a", "X"])).is_subject_field
      = true ∧
    (Field.mk "650" (.dataField [' ', ' '] ' ' ' ' ["a", "X"])).is_control_field
      = (Field.mk "650" (.control "q")).is_control_field := by
  refine ⟨?_, ?_, ?_⟩
  · exact ((C4_classification.1 _).1).mpr ((ltStr_iff "001" "010").mp (by decide))
  · exact ((C4_classification.1 _).2).mpr rfl
  · exact (C4_classification.2 _ _ rfl).1

/-- C5: the MARCMaker text begins with '=', the normalized tag and two
spaces; a control field then shows its data with each space replaced by a
backslash; a data field shows each indicator literally except that space
and backslash indicators render as a backslash, then per subfield '$',
the code and the value with no separator. -/
theorem C5_str (f : Field) :
    (∀ d, f.is_control_field = true → f.body = .control d →
      f.str = .ok ("=" ++ f.tag ++ "  " ++
        ⟨d.data.map (fun c => if c = ' ' then '\\' else c)⟩)) ∧
    (∀ inds i1 i2 sf ps, f.is_control_field = false →
      f.body = .dataField inds i1 i2 sf → pairsOf sf = .ok ps →
      f.str = .ok ("=" ++ f.tag ++ "  " ++ strConcat indicatorText inds ++
        mnemonicSubfields ps)) := by
  constructor
  · intro d hc hb
    simp only [Field.str, hc, if_true, hb]
    rfl
  · intro inds i1 i2 sf ps hc hb hp
    exact str_data_eq f inds i1 i2 sf ps hc hb hp

/-- C5 witness: tag 100 with two blank indicators begins "=100  " and
renders both indicators as backslashes; a control field's spaces become
backslashes. -/
theorem C5_str_witness :
    (Field.mk "100" (.dataField [' ', ' '] ' ' ' ' ["a", "X"])).str
      = .ok "=100  \\\\$aX" ∧
    (Field.mk "001" (.control "a b")).str = .ok "=001  a\\b" := by
  constructor
  · have h := (C5_str (Field.mk "100" (.dataField [' ', ' '] ' ' ' '
      ["a", "X"]))).2 [' ', ' '] ' ' ' ' ["a", "X"] [("a", "X")] rfl rfl rfl
    rw [h]
    rfl
  · have h := (C5_str (Field.mk "001" (.control "a b"))).1 "a b" rfl rfl
    rw [h]
    rfl

/-- C6: constructing a field whose normalized tag is not below "010" with
fewer than two indicators fails at construction with the IndexError of
`indicators[0]`/`indicators[1]`; no Field instance is returned. -/
theorem C6_few_indicators (tag : String) (inds : List Char)
    (sfs : List String) (d : String)
    (ht : ¬ normTag tag < "010") (hi : inds.length < 2) :
    field_init tag inds sfs d = .error .indexError := by
  have hb : ltStr (normTag tag) "010" = false := (ltStr_false_iff _ _).mpr ht
  cases inds with
  | nil => simp [field_init, hb]
  | cons i1 rest =>
    cases rest with
    | nil => simp [field_init, hb]
    | cons i2 r =>
      simp only [List.length_cons] at hi
      omega

/-- C6 witness: tag "245" with the single indicator '0' fails with the
IndexError at construction. -/
theorem C6_few_indicators_witness :
    field_init "245" ['0'] ["a", "X"] "" = .error .indexError :=
  C6_few_indicators "245" ['0'] ["a", "X"] ""
    ((ltStr_false_iff _ _).mp (by decide)) (by decide)

/-- C7 counterexample: on the odd subfield list ["a","X","b"], `value()`
raises the generic IndexError of list indexing, which is not an error
identifying the subfield list as malformed. -/
theorem C7_counterexample :
    (Field.mk "245" (.dataField ['0', '1'] '0' '1' ["a", "X", "b"])).value
      = .error PyErr.indexError ∧
    PyErr.indexError ≠ PyErr.malformedSubfieldsError := by
  exact ⟨rfl, by decide⟩

/-- C7 as amended: on a data field whose flat subfield list has odd
length, pairing the subfields — and hence value(), as_marc21(),
format_field() and get_subfields() — fails with an error (so the unpaired
trailing entry is never silently dropped), but the error is the generic
IndexError of reading past the unpaired entry, not an error identifying
the subfield list as malformed. -/
theorem C7_odd_subfields (tag : String) (inds : List Char) (i1 i2 : Char)
    (sf codes : List String) (hodd : sf.length % 2 = 1)
    (hc : ¬ tag < "010") :
    pairsOf sf = .error .indexError ∧
    (Field.mk tag (.dataField inds i1 i2 sf)).value = .error .indexError ∧
    (Field.mk tag (.dataField inds i1 i2 sf)).as_marc21 = .error .indexError ∧
    (Field.mk tag (.dataField inds i1 i2 sf)).format_field
      = .error .indexError ∧
    (Field.mk tag (.dataField inds i1 i2 sf)).get_subfields codes
      = .error .indexError := by
  have hb : ltStr tag "010" = false := (ltStr_false_iff _ _).mpr hc
  have hcf : (Field.mk tag (.dataField inds i1 i2 sf)).is_control_field = false := hb
  have hp := pairsOf_odd sf hodd
  refine ⟨hp, ?_, ?_, ?_, ?_⟩
  · simp only [Field.value, hcf, Bool.false_eq_true, if_false, hp]
    rfl
  · simp only [Field.as_marc21, hcf, Bool.false_eq_true, if_false, hp]
    rfl
  · simp only [Field.format_field, hcf, Bool.false_eq_true, if_false, hp]
    rfl
  · simp only [Field.get_subfields, hp]
    rfl

/-- C7 witness: the amended claim at the concrete odd list
["a","X","b"]. -/
theorem C7_odd_subfields_witness :
    pairsOf ["a", "X", "b"] = .error .indexError ∧
    (Field.mk "245" (.dataField ['0', '1'] '0' '1' ["a", "X", "b"])).value
      = .error .indexError ∧
    (Field.mk "245" (.dataField ['0', '1'] '0' '1' ["a", "X", "b"])).as_marc21
      = .error .indexError ∧
    (Field.mk "245" (.dataField ['0', '1'] '0' '1'
      ["a", "X", "b"])).format_field = .error .indexError ∧
    (Field.mk "245" (.dataField ['0', '1'] '0' '1'
      ["a", "X", "b"])).get_subfields ["a"] = .error .indexError :=
  C7_odd_subfields "245" ['0', '1'] '0' '1' ["a", "X", "b"] ["a"] (by decide)
    ((ltStr_false_iff _ _).mp (by decide))

/-- C8: `add_subfield` on a control field fails with the AttributeError
raised by accessing the data-variant-only subfield list (the duck-typed
variant-mismatch error, not silent garbage); on a data field it appends
exactly the pair (code, value) at the end of the flat list, and on the
pair level it appends exactly one pair, leaving every prior pair unchanged
and in order. -/
theorem C8_add_subfield :
    (∀ (f : Field) (d c v : String), f.body = .control d →
      f.add_subfield c v = .error .attributeError) ∧
    (∀ (f : Field) (inds : List Char) (i1 i2 : Char) (sf : List String)
      (c v : String), f.body = .dataField inds i1 i2 sf →
      f.add_subfield c v = .ok ⟨f.tag, .dataField inds i1 i2 (sf ++ [c, v])⟩ ∧
      pairsOf (sf ++ [c, v]) =
        Except.map (fun ps => ps ++ [(c, v)]) (pairsOf sf)) := by
  constructor
  · intro f d c v hb
    simp only [Field.add_subfield, hb]
  · intro f inds i1 i2 sf c v hb
    exact ⟨by simp only [Field.add_subfield, hb], pairsOf_append_pair c v sf⟩

/-- C8 witness: adding u/http://x to a control field errors; adding it to
a data field with subfields a/X appends the single pair (u, http://x). -/
theorem C8_add_subfield_witness :
    (Field.mk "001" (.control "d")).add_subfield "u" "http://x"
      = .error .attributeError ∧
    (Field.mk "245" (.dataField ['0', '1'] '0' '1'
        ["a", "X"])).add_subfield "u" "http://x"
      = .ok ⟨"245", .dataField ['0', '1'] '0' '1' ["a", "X", "u", "http://x"]⟩ ∧
    pairsOf ["a", "X", "u", "http://x"]
      = Except.map (fun ps => ps ++ [("u", "http://x")]) (pairsOf ["a", "X"]) := by
  refine ⟨?_, ?_, ?_⟩
  · exact C8_add_subfield.1 _ "d" "u" "http://x" rfl
  · exact (C8_add_subfield.2 _ ['0', '1'] '0' '1' ["a", "X"] "u" "http://x" rfl).1
  · exact (C8_add_subfield.2 (Field.mk "245" (.dataField ['0', '1'] '0' '1'
      ["a", "X"])) ['0', '1'] '0' '1' ["a", "X"] "u" "http://x" rfl).2

/-- C9: a tag shorter than 3 characters is left-padded with spaces to
width 3; the padded tag orders below "010" because the space character
orders before '0', so construction always takes the control-field branch,
keeping only `data` and discarding the indicators and subfields. -/
theorem C9_short_tag (tag : String) (inds : List Char) (sfs : List String)
    (d : String) (h : tag.length < 3) :
    normTag tag = ⟨List.replicate (3 - tag.length) ' ' ++ tag.data⟩ ∧
    normTag tag < "010" ∧
    field_init tag inds sfs d = .ok ⟨normTag tag, .control d⟩ ∧
    (Field.mk (normTag tag) (.control d)).is_control_field = true := by
  have hlt : ltStr (normTag tag) "010" = true := by
    obtain ⟨k, hk⟩ : ∃ k, 3 - tag.length = k + 1 := ⟨2 - tag.length, by omega⟩
    simp only [ltStr, normTag, if_pos h, hk, List.replicate_succ]
    show ltChars (' ' :: (List.replicate k ' ' ++ tag.data)) ['0', '1', '0'] = true
    simp [ltChars]
  refine ⟨by simp only [normTag, if_pos h], (ltStr_iff _ _).mp hlt, ?_, hlt⟩
  simp only [field_init, hlt, if_true]

/-- C9 witness: the tag "1" pads to "  1", orders below "010", and builds
a control field even when indicators and subfields are supplied. -/
theorem C9_short_tag_witness :
    normTag "1" = "  1" ∧ ("  1" : String) < "010" ∧
    field_init "1" ['0', '1'] ["a", "X"] "dd" = .ok ⟨"  1", .control "dd"⟩ ∧
    (Field.mk "  1" (.control "dd")).is_control_field = true := by
  have h := C9_short_tag "1" ['0', '1'] ["a", "X"] "dd" (by decide)
  exact ⟨rfl, h.2.1, h.2.2.1, h.2.2.2⟩

/-- C10 counterexample: the subject field 650 with the single subfield
pair v/"" (empty value) pretty-prints to exactly "--": the trailing strip
removes the space after the dashes, so the output does not begin with
"--" followed by a space. -/
theorem C10_counterexample :
    field_init "650" [' ', ' '] ["v", ""] ""
      = .ok ⟨"650", .dataField [' ', ' '] ' ' ' ' ["v", ""]⟩ ∧
    (Field.mk "650" (.dataField [' ', ' '] ' ' ' ' ["v", ""])).is_subject_field
      = true ∧
    (Field.mk "650" (.dataField [' ', ' '] ' ' ' ' ["v", ""])).format_field
      = .ok "--" ∧
    List.isPrefixOf ("-- ".data) ("--".data) = false := by
  exact ⟨rfl, rfl, rfl, by decide⟩

/-- C10 as amended: on a subject field whose first subfield code is v, x,
y or z (and whose remaining flat list pairs up), `format_field` returns a
string beginning with the two dashes of the leading " -- " delimiter — the
final strip removes only outer whitespace, so the dashes survive at the
start; the space after them, however, is not always present (it is
stripped when everything after the dashes is whitespace, as in the
counterexample). -/
theorem C10_leading_dashes (f : Field) (inds : List Char) (i1 i2 : Char)
    (c1 v1 : String) (sf : List String) (ps : List (String × String))
    (hc : f.is_control_field = false)
    (hb : f.body = .dataField inds i1 i2 (c1 :: v1 :: sf))
    (hs : f.is_subject_field = true)
    (hcode : c1 ∈ (["v", "x", "y", "z"] : List String))
    (hp : pairsOf sf = .ok ps) :
    ∃ t, f.format_field = .ok ⟨'-' :: '-' :: t⟩ := by
  have hp2 : pairsOf (c1 :: v1 :: sf) = .ok ((c1, v1) :: ps) := by
    simp only [pairsOf, hp]
    rfl
  have h := format_data_eq f inds i1 i2 (c1 :: v1 :: sf) ((c1, v1) :: ps)
    hc hb hp2
  rw [h]
  have hpiece : formatPiece f.is_subject_field (c1, v1) = " -- " ++ v1 := by
    simp [formatPiece, hs, hcode]
  have hshape : formatSpec f.is_subject_field ((c1, v1) :: ps)
      = (" -- " ++ v1) ++ strConcat (formatPiece f.is_subject_field) ps := by
    simp only [formatSpec, strConcat, hpiece]
  rw [hshape]
  set R := strConcat (formatPiece f.is_subject_field) ps with hR
  have hdata : (((" -- " ++ v1) ++ R)).data
      = ' ' :: '-' :: '-' :: ' ' :: (v1.data ++ R.data) := by
    simp [String.data_append]
  obtain ⟨t1, h1⟩ :=
    rstrip_cons_of_head '-' (' ' :: (v1.data ++ R.data)) (by decide)
  refine ⟨t1, ?_⟩
  have hdrop : (((" -- " ++ v1) ++ R)).data.dropWhile isPySpace
      = '-' :: '-' :: ' ' :: (v1.data ++ R.data) := by
    rw [hdata]
    rfl
  have houter : rstripChars ('-' :: '-' :: ' ' :: (v1.data ++ R.data))
      = '-' :: '-' :: t1 :=
    rstrip_cons_of_tail '-' '-' ('-' :: ' ' :: (v1.data ++ R.data)) t1 h1
  show Except.ok (pyStrip ((" -- " ++ v1) ++ R)) = _
  rw [show pyStrip ((" -- " ++ v1) ++ R)
      = ⟨rstripChars ((((" -- " ++ v1) ++ R)).data.dropWhile isPySpace)⟩ from rfl,
    hdrop, houter]

/-- C10 witness: the amended claim at the concrete subject field 650 with
the single subfield pair v/Fiction, whose formatted value is
"-- Fiction". -/
theorem C10_leading_dashes_witness :
    (Field.mk "650" (.dataField [' ', ' '] ' ' ' '
      ["v", "Fiction"])).format_field = .ok "-- Fiction" := by
  obtain ⟨t, ht⟩ := C10_leading_dashes (Field.mk "650" (.dataField [' ', ' ']
    ' ' ' ' ["v", "Fiction"])) [' ', ' '] ' ' ' ' "v" "Fiction" [] [] rfl rfl
    rfl (by decide) rfl
  exact rfl

end Pymarc
